import Mathlib

/-!
Verification development for the Seal sealed-file envelope protocol.

The embedding follows src/public/seal-crypto.js (envelope builder, key codec
and opener) and the validation pipeline of src/app/viewer/page.tsx
(handleFileLoaded).  The Web Crypto primitives (AES-256-GCM, RSA-OAEP) and
the base64 transport codec are platform collaborators; they are modelled
symbolically: a ciphertext is a constructor application remembering the key
under which it was produced, decryption succeeds exactly when the matching
key is supplied (authenticated encryption detects every mismatch), and an
RSA key pair is identified by a shared numeric id.
-/

namespace Seal

/-- Raw byte strings (file contents). -/
abbrev Bytes := List Nat

/-- Symbolic byte buffers produced and consumed by the platform crypto
primitives. -/
inductive SymBytes where
  | raw : Bytes → SymBytes
  | rawKey : Nat → SymBytes
  | aesCt : Nat → Nat → SymBytes → SymBytes
  | rsaCt : Nat → SymBytes → SymBytes
deriving DecidableEq

/-- Unified error outcomes of the crypto module.  keyFormatError stands for
the platform exceptions thrown while decoding key material (atob raising
InvalidCharacterError on bad base64, crypto.subtle.importKey rejecting
malformed SPKI or PKCS8 bytes); unauthorizedError is the explicit throw in
openSealFile; decryptionError covers RSA-OAEP unwrap and AES-GCM decrypt
failures. -/
inductive SealError where
  | keyFormatError
  | unauthorizedError
  | decryptionError
deriving DecidableEq

/-- encryptFile: AES-256-GCM encryption of the file bytes under the fresh
key and the fresh iv (the iv is entropy supplied by the platform, passed
here as an explicit argument). -/
def encryptFile (fileData : SymBytes) (aesKey : Nat) (iv : Nat) : SymBytes × Nat :=
  (SymBytes.aesCt aesKey iv fileData, iv)

/-- decryptFile: AES-256-GCM decryption; the authentication tag makes every
key or iv mismatch fail. -/
def decryptFile (encryptedData : SymBytes) (aesKey : Nat) (iv : Nat) :
    Except SealError SymBytes :=
  match encryptedData with
  | SymBytes.aesCt k i p =>
      if k = aesKey ∧ i = iv then Except.ok p else Except.error SealError.decryptionError
  | _ => Except.error SealError.decryptionError

/-- encryptKeyForRecipient: export the raw AES key bytes and wrap them with
the recipient RSA-OAEP public key. -/
def encryptKeyForRecipient (aesKey : Nat) (publicKey : Nat) : SymBytes :=
  SymBytes.rsaCt publicKey (SymBytes.rawKey aesKey)

/-- decryptKeyForRecipient: RSA-OAEP unwrap with the private key, then
re-import the raw bytes as an AES key.  A wrong private key fails the OAEP
padding check; bytes that are not a raw AES key fail the import.  Both are
decryption failures. -/
def decryptKeyForRecipient (encryptedKey : SymBytes) (privateKey : Nat) :
    Except SealError Nat :=
  match encryptedKey with
  | SymBytes.rsaCt pub m =>
      if pub = privateKey then
        match m with
        | SymBytes.rawKey k => Except.ok k
        | _ => Except.error SealError.decryptionError
      else Except.error SealError.decryptionError
  | _ => Except.error SealError.decryptionError

/-- The textual key encodings handled by the key codec: spki and pkcs8 are
valid base64 of a well-formed key of the respective binary format for the
key pair with the given id; the two invalid cases are a string that atob
rejects and a string whose decoded bytes are not a well-formed key. -/
inductive EncodedKey where
  | spki : Nat → EncodedKey
  | pkcs8 : Nat → EncodedKey
  | invalidBase64 : Nat → EncodedKey
  | invalidBytes : Nat → EncodedKey
deriving DecidableEq

/-- importPublicKey: atob, then crypto.subtle.importKey with format spki
restricted to encrypt usage.  Any decoding failure surfaces as a thrown
key-format error; pkcs8 bytes are not valid SPKI, so they fail too. -/
def importPublicKey : EncodedKey → Except SealError Nat
  | EncodedKey.spki k => Except.ok k
  | _ => Except.error SealError.keyFormatError

/-- importPrivateKey: atob, then crypto.subtle.importKey with format pkcs8
restricted to decrypt usage. -/
def importPrivateKey : EncodedKey → Except SealError Nat
  | EncodedKey.pkcs8 k => Except.ok k
  | _ => Except.error SealError.keyFormatError

/-- The key-pair id carried by a well-formed encoding (default 0 on the
invalid cases, which the hypotheses of the lemmas using it exclude). -/
def keyIdOf : EncodedKey → Nat
  | EncodedKey.spki k => k
  | EncodedKey.pkcs8 k => k
  | EncodedKey.invalidBase64 _ => 0
  | EncodedKey.invalidBytes _ => 0

/-- A metadata value: either a string that parses as a date with the given
epoch-millisecond value, or any other string. -/
inductive MetaValue where
  | timeStr : Int → MetaValue
  | text : String → MetaValue
deriving DecidableEq

/-- The metadata object: a finite map from field names to values, modelled
as a function (JavaScript object semantics). -/
abbrev Metadata := String → Option MetaValue

/-- JavaScript truthiness of a metadata value (the empty string is falsy). -/
def truthy : MetaValue → Bool
  | MetaValue.timeStr _ => true
  | MetaValue.text s => !s.isEmpty

/-- new Date(v).getTime(): the parsed epoch milliseconds, or none for NaN
when the string is not a date. -/
def getTime : MetaValue → Option Int
  | MetaValue.timeStr t => some t
  | MetaValue.text _ => none

/-- A requested recipient as passed to createSealFile: email plus the
base64 public-key encoding fetched from the directory. -/
structure RecipientInput where
  email : String
  publicKey : EncodedKey
deriving DecidableEq

/-- A recipient entry of a sealed file: email plus the wrapped symmetric
key (stored base64-encoded; the transport codec is transparent here). -/
structure RecipientEntry where
  email : String
  encryptedKey : SymBytes
deriving DecidableEq

/-- The input file: name, MIME type, size attribute and contents. -/
structure FileData where
  name : String
  type : String
  size : Nat
  data : Bytes
deriving DecidableEq

/-- The sealed-file envelope as assembled by createSealFile. -/
structure SealFile where
  version : Int
  fileId : String
  fileName : String
  fileType : String
  fileSize : Nat
  encryptedData : SymBytes
  iv : Nat
  recipients : List RecipientEntry
  metadata : Metadata

/-- The result of a successful open: plaintext plus display attributes. -/
structure DecryptedFile where
  data : SymBytes
  fileName : String
  fileType : String
deriving DecidableEq

/-- The character-level lowercasing behind the toLowerCase calls of the
source (emails are ASCII, where the JavaScript and Lean lowercasings
agree); modelled over the character list so that concrete instances
evaluate. -/
def lowerChars (s : String) : List Char := s.data.map Char.toLower

/-- The per-recipient wrapping loop of createSealFile: import each public
key and wrap the AES key, in list order, aborting the whole build on the
first failure (the thrown error propagates out of the enclosing promise). -/
def wrapForRecipients (aesKey : Nat) : List RecipientInput → Except SealError (List RecipientEntry)
  | [] => Except.ok []
  | r :: rest =>
    match importPublicKey r.publicKey with
    | Except.error e => Except.error e
    | Except.ok pub =>
      match wrapForRecipients aesKey rest with
      | Except.error e => Except.error e
      | Except.ok tail => Except.ok (⟨r.email, encryptKeyForRecipient aesKey pub⟩ :: tail)

/-- createSealFile: generate a fresh AES key and iv (entropy passed as
arguments), encrypt the file, wrap the key for every recipient, and
assemble the version-1 envelope; metadata is spread with createdAt set to
the build time, overriding any caller-supplied createdAt. -/
def createSealFile (file : FileData) (recipients : List RecipientInput) (fileId : String)
    (metadata : Metadata) (aesKey iv : Nat) (buildTime : Int) :
    Except SealError SealFile :=
  match wrapForRecipients aesKey recipients with
  | Except.error e => Except.error e
  | Except.ok recipientKeys =>
    Except.ok {
      version := 1
      fileId := fileId
      fileName := file.name
      fileType := file.type
      fileSize := file.size
      encryptedData := (encryptFile (SymBytes.raw file.data) aesKey iv).1
      iv := (encryptFile (SymBytes.raw file.data) aesKey iv).2
      recipients := recipientKeys
      metadata := fun k => if k = "createdAt" then some (MetaValue.timeStr buildTime) else metadata k
    }

/-- openSealFile: find the first recipient entry whose email matches the
caller email case-insensitively; absent entry throws the not-a-recipient
error before any key material is touched; otherwise import the private
key, unwrap the AES key and decrypt the ciphertext. -/
def openSealFile (sealFile : SealFile) (userEmail : String) (userPrivateKey : EncodedKey) :
    Except SealError DecryptedFile :=
  match sealFile.recipients.find? (fun r => lowerChars r.email == lowerChars userEmail) with
  | none => Except.error SealError.unauthorizedError
  | some entry =>
    match importPrivateKey userPrivateKey with
    | Except.error e => Except.error e
    | Except.ok priv =>
      match decryptKeyForRecipient entry.encryptedKey priv with
      | Except.error e => Except.error e
      | Except.ok aesKey =>
        match decryptFile sealFile.encryptedData aesKey sealFile.iv with
        | Except.error e => Except.error e
        | Except.ok decryptedData =>
            Except.ok ⟨decryptedData, sealFile.fileName, sealFile.fileType⟩

/-- The cryptographic primitive invocations of openSealFile, in source
order. -/
inductive PrimOp where
  | importPrivKey
  | unwrapKey
  | decryptData
deriving DecidableEq

/-- openSealFile instrumented with the list of primitive operations it
performed, in order; same control flow as openSealFile. -/
def openSealFileOps (sealFile : SealFile) (userEmail : String) (userPrivateKey : EncodedKey) :
    Except SealError DecryptedFile × List PrimOp :=
  match sealFile.recipients.find? (fun r => lowerChars r.email == lowerChars userEmail) with
  | none => (Except.error SealError.unauthorizedError, [])
  | some entry =>
    match importPrivateKey userPrivateKey with
    | Except.error e => (Except.error e, [PrimOp.importPrivKey])
    | Except.ok priv =>
      match decryptKeyForRecipient entry.encryptedKey priv with
      | Except.error e => (Except.error e, [PrimOp.importPrivKey, PrimOp.unwrapKey])
      | Except.ok aesKey =>
        match decryptFile sealFile.encryptedData aesKey sealFile.iv with
        | Except.error e =>
            (Except.error e, [PrimOp.importPrivKey, PrimOp.unwrapKey, PrimOp.decryptData])
        | Except.ok d =>
            (Except.ok ⟨d, sealFile.fileName, sealFile.fileType⟩,
             [PrimOp.importPrivKey, PrimOp.unwrapKey, PrimOp.decryptData])

/-- The terminal outcome of the viewer pipeline of handleFileLoaded in
src/app/viewer/page.tsx: each error constructor is one of the setError
branches, viewing is the success state. -/
inductive ViewerOutcome where
  | errorExpired : Int → ViewerOutcome
  | errorNotLoggedIn : ViewerOutcome
  | errorNotAuthorized : String → ViewerOutcome
  | errorKeyNotFound : ViewerOutcome
  | errorDecryptionFailed : SealError → ViewerOutcome
  | viewing : DecryptedFile → ViewerOutcome
deriving DecidableEq

/-- The viewer expiry test: if metadata.expiresAt is present and truthy,
parse it and compare strictly with the current time; returns the parsed
expiry when the file is expired.  An unparseable date yields NaN and the
comparison now greater-than NaN is false. -/
def expiredCheck (sf : SealFile) (now : Int) : Option Int :=
  match sf.metadata "expiresAt" with
  | some v =>
      if truthy v then
        match getTime v with
        | some expiry => if now > expiry then some expiry else none
        | none => none
      else none
  | none => none

/-- The email the viewer resolves for the caller: the session email if
present and non-empty, else the locally stored email, else the empty
string. -/
def resolveEmail (userEmail : Option String) (storedEmail : Option String) : String :=
  match userEmail with
  | some e => if e.isEmpty then (match storedEmail with | some s => s | none => "") else e
  | none => match storedEmail with | some s => s | none => ""

/-- The viewer recipient-membership test (case-insensitive some). -/
def isRecipient (sf : SealFile) (email : String) : Bool :=
  sf.recipients.any (fun r => lowerChars r.email == lowerChars email)

/-- handleFileLoaded of the viewer page, from the validating step on: check
expiry, then that a caller email is known, then recipient membership, then
fetch the stored private key and run openSealFile. -/
def handleFileLoaded (sf : SealFile) (userEmail : Option String) (storedEmail : Option String)
    (now : Int) (storedPrivateKey : Option EncodedKey) : ViewerOutcome :=
  match expiredCheck sf now with
  | some expiry => ViewerOutcome.errorExpired expiry
  | none =>
    let email := resolveEmail userEmail storedEmail
    if email.isEmpty then ViewerOutcome.errorNotLoggedIn
    else if isRecipient sf email then
      match storedPrivateKey with
      | none => ViewerOutcome.errorKeyNotFound
      | some pk =>
        match openSealFile sf email pk with
        | Except.ok d => ViewerOutcome.viewing d
        | Except.error e => ViewerOutcome.errorDecryptionFailed e
    else ViewerOutcome.errorNotAuthorized email

/-- Whether an outcome passed the validating phase (expiry, login and
authorization checks) and reached the decrypting phase of the pipeline. -/
def validationPassed : ViewerOutcome → Bool
  | ViewerOutcome.errorExpired _ => false
  | ViewerOutcome.errorNotLoggedIn => false
  | ViewerOutcome.errorNotAuthorized _ => false
  | ViewerOutcome.errorKeyNotFound => true
  | ViewerOutcome.errorDecryptionFailed _ => true
  | ViewerOutcome.viewing _ => true

/-- An untrusted parsed .seal object before structural validation: every
field of the schema may be absent. -/
structure RawSeal where
  version : Option Int
  fileId : Option String
  fileName : Option String
  fileType : Option String
  fileSize : Option Nat
  encryptedData : Option SymBytes
  iv : Option Nat
  recipients : Option (List RecipientEntry)
  metadata : Option Metadata

/-- Modelled from the spec: whether the recipients field is present and
non-empty. -/
def recipientsOk : Option (List RecipientEntry) → Bool
  | some (_ :: _) => true
  | _ => false

/-- Modelled from the spec: the structural condition of the envelope reader
(section 4.3 step 1): required fields present, recipients non-empty,
version recognized (currently 1). -/
def structuralOk (raw : RawSeal) : Bool :=
  (raw.version == some 1) && raw.fileId.isSome && raw.fileName.isSome &&
  raw.fileType.isSome && raw.fileSize.isSome && raw.encryptedData.isSome &&
  raw.iv.isSome && recipientsOk raw.recipients && raw.metadata.isSome

/-- Modelled from the spec: the structural check of the envelope reader
(section 4.3 step 1) performed when a .seal file is parsed.  The upload and
parsing component the viewer delegates to is not among the provided source
files, so this follows the spec words: a structural failure is the
malformed envelope error (none here) and unknown versions are never parsed
best-effort.  The getD defaults are unreachable under the guard. -/
def parseSealFile (raw : RawSeal) : Option SealFile :=
  if structuralOk raw then
    some { version := raw.version.getD 0
           fileId := raw.fileId.getD ""
           fileName := raw.fileName.getD ""
           fileType := raw.fileType.getD ""
           fileSize := raw.fileSize.getD 0
           encryptedData := raw.encryptedData.getD (SymBytes.raw [])
           iv := raw.iv.getD 0
           recipients := raw.recipients.getD []
           metadata := raw.metadata.getD (fun _ => none) }
  else none

/-- The pipeline outcome including the structural stage: malformed, or a
viewer outcome on the parsed envelope. -/
inductive PipelineOutcome where
  | errorMalformed : PipelineOutcome
  | outcome : ViewerOutcome → PipelineOutcome
deriving DecidableEq

/-- The full viewer pipeline on an untrusted object: structural validation
first (spec-modelled), then handleFileLoaded. -/
def viewerPipeline (raw : RawSeal) (userEmail : Option String) (storedEmail : Option String)
    (now : Int) (storedPrivateKey : Option EncodedKey) : PipelineOutcome :=
  match parseSealFile raw with
  | none => PipelineOutcome.errorMalformed
  | some sf => PipelineOutcome.outcome (handleFileLoaded sf userEmail storedEmail now storedPrivateKey)

/-- The envelope of a build result, with an inert default on the error
case (used only to state concrete instances). -/
def envOrDefault (x : Except SealError SealFile) : SealFile :=
  match x with
  | Except.ok e => e
  | Except.error _ => ⟨0, "", "", "", 0, SymBytes.raw [], 0, [], fun _ => none⟩

/-- A concrete ten-byte input file. -/
def file0 : FileData :=
  ⟨"report.pdf", "application/pdf", 10, [10, 20, 30, 40, 50, 60, 70, 80, 90, 100]⟩

/-- A concrete caller-supplied metadata object with no fields. -/
def meta0 : Metadata := fun _ => none

/-- A concrete caller-supplied metadata object with an extension field and
an expiry at epoch-millis 100. -/
def meta1 : Metadata := fun k =>
  if k = "note" then some (MetaValue.text "hi")
  else if k = "expiresAt" then some (MetaValue.timeStr 100) else none

/-- The concrete two-recipient request of the spec scenario. -/
def recipsAB : List RecipientInput :=
  [⟨"a@x.com", EncodedKey.spki 1⟩, ⟨"b@x.com", EncodedKey.spki 2⟩]

/-- A request list whose second entry carries a malformed public key. -/
def recipsBad : List RecipientInput :=
  [⟨"a@x.com", EncodedKey.spki 1⟩, ⟨"b@x.com", EncodedKey.invalidBytes 3⟩]

/-- A request list with two entries for the same email carrying different
public keys. -/
def recipsDup : List RecipientInput :=
  [⟨"a@x.com", EncodedKey.spki 1⟩, ⟨"a@x.com", EncodedKey.spki 2⟩]

/-- A concrete sealed file for a@x.com and b@x.com encrypted under AES key
5 and iv 9, expiring at epoch-millis 100. -/
def sealAB : SealFile :=
  { version := 1
    fileId := "fid"
    fileName := "report.pdf"
    fileType := "application/pdf"
    fileSize := 10
    encryptedData := SymBytes.aesCt 5 9 (SymBytes.raw [10, 20, 30, 40, 50, 60, 70, 80, 90, 100])
    iv := 9
    recipients := [⟨"a@x.com", SymBytes.rsaCt 1 (SymBytes.rawKey 5)⟩,
                   ⟨"b@x.com", SymBytes.rsaCt 2 (SymBytes.rawKey 5)⟩]
    metadata := fun k => if k = "expiresAt" then some (MetaValue.timeStr 100) else none }

/-- The same sealed file without any expiry. -/
def sealNoExp : SealFile :=
  { version := 1
    fileId := "fid"
    fileName := "report.pdf"
    fileType := "application/pdf"
    fileSize := 10
    encryptedData := SymBytes.aesCt 5 9 (SymBytes.raw [10, 20, 30, 40, 50, 60, 70, 80, 90, 100])
    iv := 9
    recipients := [⟨"a@x.com", SymBytes.rsaCt 1 (SymBytes.rawKey 5)⟩,
                   ⟨"b@x.com", SymBytes.rsaCt 2 (SymBytes.rawKey 5)⟩]
    metadata := fun _ => none }

/-- A raw object carrying an unrecognized version 2. -/
def rawV2 : RawSeal :=
  { version := some 2
    fileId := some "fid"
    fileName := some "report.pdf"
    fileType := some "application/pdf"
    fileSize := some 10
    encryptedData := some (SymBytes.aesCt 5 9 (SymBytes.raw [1]))
    iv := some 9
    recipients := some [⟨"a@x.com", SymBytes.rsaCt 1 (SymBytes.rawKey 5)⟩]
    metadata := some (fun _ => none) }


/-- Wrapping succeeds on an all-valid recipient list and wraps in list
order. -/
lemma wrapForRecipients_ok (key : Nat) :
    ∀ (recips : List RecipientInput),
      (∀ x ∈ recips, ∃ j, x.publicKey = EncodedKey.spki j) →
      wrapForRecipients key recips =
        Except.ok (recips.map fun x =>
          (⟨x.email, encryptKeyForRecipient key (keyIdOf x.publicKey)⟩ : RecipientEntry))
  | [], _ => rfl
  | r :: rest, h => by
      obtain ⟨j, hj⟩ := h r (List.mem_cons_self r rest)
      have ih := wrapForRecipients_ok key rest (fun x hx => h x (List.mem_cons_of_mem _ hx))
      simp [wrapForRecipients, hj, importPublicKey, ih, keyIdOf]

/-- Wrapping fails outright when some requested recipient carries a key
that does not import. -/
lemma wrapForRecipients_error (key : Nat) :
    ∀ (recips : List RecipientInput) (r : RecipientInput), r ∈ recips →
      (∀ j, r.publicKey ≠ EncodedKey.spki j) →
      wrapForRecipients key recips = Except.error SealError.keyFormatError
  | [], r, hr, _ => absurd hr (List.not_mem_nil r)
  | x :: rest, r, hr, hbad => by
      rcases List.mem_cons.mp hr with rfl | hr
      · have : importPublicKey r.publicKey = Except.error SealError.keyFormatError := by
          cases hpk : r.publicKey with
          | spki j => exact absurd hpk (hbad j)
          | pkcs8 j => rfl
          | invalidBase64 n => rfl
          | invalidBytes n => rfl
        simp [wrapForRecipients, this]
      · have ih := wrapForRecipients_error key rest r hr hbad
        cases hx : importPublicKey x.publicKey with
        | error e =>
            cases hpk : x.publicKey <;> simp [importPublicKey] at hx <;>
              simp [wrapForRecipients, hpk, importPublicKey, ih, hx]
        | ok pub => simp [wrapForRecipients, hx, ih]

/-- A successful wrap keeps every requested email, in order. -/
lemma wrapForRecipients_emails (key : Nat) :
    ∀ (recips : List RecipientInput) (entries : List RecipientEntry),
      wrapForRecipients key recips = Except.ok entries →
      entries.map RecipientEntry.email = recips.map RecipientInput.email
  | [], entries, h => by
      simp [wrapForRecipients] at h
      simp [← h]
  | r :: rest, entries, h => by
      cases hx : importPublicKey r.publicKey with
      | error e => simp [wrapForRecipients, hx] at h
      | ok pub =>
        cases hw : wrapForRecipients key rest with
        | error e => simp [wrapForRecipients, hx, hw] at h
        | ok tail =>
            have ih := wrapForRecipients_emails key rest tail hw
            simp [wrapForRecipients, hx, hw] at h
            simp [← h, ih]


/-- On a wrapped list whose lowered emails are distinct, the
case-insensitive lookup for a requested recipient returns exactly the
entry wrapped for that recipient. -/
lemma find?_wrapped (key : Nat) (r : RecipientInput) :
    ∀ (recips : List RecipientInput),
      (recips.map fun x => lowerChars x.email).Nodup → r ∈ recips →
      ((recips.map fun x =>
          (⟨x.email, encryptKeyForRecipient key (keyIdOf x.publicKey)⟩ : RecipientEntry)).find?
        (fun en => lowerChars en.email == lowerChars r.email))
        = some ⟨r.email, encryptKeyForRecipient key (keyIdOf r.publicKey)⟩
  | [], _, hr => absurd hr (List.not_mem_nil r)
  | x :: rest, hnd, hr => by
      obtain ⟨hx, hnd'⟩ : (∀ y ∈ rest, ¬ lowerChars y.email = lowerChars x.email) ∧
          (rest.map fun y => lowerChars y.email).Nodup := by simpa using hnd
      by_cases hbeq : lowerChars x.email = lowerChars r.email
      · have hrx : r = x := by
          rcases List.mem_cons.mp hr with rfl | hr'
          · rfl
          · exact absurd hbeq.symm (hx r hr')
        subst hrx
        simp [List.find?]
      · have hr' : r ∈ rest := by
          rcases List.mem_cons.mp hr with rfl | hr'
          · exact absurd rfl hbeq
          · exact hr'
        have ih := find?_wrapped key r rest hnd' hr'
        simp only [List.map_cons, List.find?]
        rw [show (lowerChars x.email == lowerChars r.email) = false from beq_eq_false_iff_ne.mpr hbeq]
        exact ih


/-- Sealing then opening as a listed recipient, with the matching private
key, recovers the plaintext and the file attributes (assuming all public
keys import and the lowered emails are pairwise distinct). -/
lemma open_create_roundtrip
    (file : FileData) (recips : List RecipientInput) (fid : String) (m : Metadata)
    (key iv : Nat) (t : Int) (r : RecipientInput) (k : Nat)
    (hall : ∀ x ∈ recips, ∃ j, x.publicKey = EncodedKey.spki j)
    (hnodup : (recips.map fun x => lowerChars x.email).Nodup)
    (hmem : r ∈ recips) (hk : r.publicKey = EncodedKey.spki k) :
    (createSealFile file recips fid m key iv t).bind
      (fun env => openSealFile env r.email (EncodedKey.pkcs8 k))
      = Except.ok ⟨SymBytes.raw file.data, file.name, file.type⟩ := by
  have hw := wrapForRecipients_ok key recips hall
  have hf := find?_wrapped key r recips hnodup hmem
  simp only [createSealFile, hw, Except.bind]
  simp only [openSealFile, encryptFile]
  rw [hf]
  simp [hk, keyIdOf, importPrivateKey, decryptKeyForRecipient, encryptKeyForRecipient, decryptFile]


/-- importPrivateKey only ever fails with the key-format error. -/
lemma importPrivateKey_error (k : EncodedKey) (e : SealError) :
    importPrivateKey k = Except.error e → e = SealError.keyFormatError := by
  cases k <;> simp [importPrivateKey] <;> intro h <;> simp_all

/-- decryptKeyForRecipient only ever fails with the decryption error. -/
lemma decryptKeyForRecipient_error (ek : SymBytes) (p : Nat) (e : SealError) :
    decryptKeyForRecipient ek p = Except.error e → e = SealError.decryptionError := by
  intro h
  cases ek with
  | raw b => simp [decryptKeyForRecipient] at h; simp [h]
  | rawKey k => simp [decryptKeyForRecipient] at h; simp [h]
  | aesCt a b c => simp [decryptKeyForRecipient] at h; simp [h]
  | rsaCt pub m =>
      simp only [decryptKeyForRecipient] at h
      split at h
      · cases m <;> simp_all
      · simp_all

/-- decryptFile only ever fails with the decryption error. -/
lemma decryptFile_error (ed : SymBytes) (key iv : Nat) (e : SealError) :
    decryptFile ed key iv = Except.error e → e = SealError.decryptionError := by
  intro h
  cases ed with
  | raw b => simp [decryptFile] at h; simp [h]
  | rawKey k => simp [decryptFile] at h; simp [h]
  | rsaCt a b => simp [decryptFile] at h; simp [h]
  | aesCt k i p =>
      simp only [decryptFile] at h
      split at h <;> simp_all


/-- The decrypting phase of handleFileLoaded always yields an outcome that
passed validation, whatever the stored key and the decryption result. -/
lemma validationPassed_decrypt (sf : SealFile) (email : String) (pk : Option EncodedKey) :
    validationPassed (match pk with
      | none => ViewerOutcome.errorKeyNotFound
      | some k =>
        match openSealFile sf email k with
        | Except.ok d => ViewerOutcome.viewing d
        | Except.error e => ViewerOutcome.errorDecryptionFailed e) = true := by
  cases pk with
  | none => rfl
  | some k => cases h : openSealFile sf email k <;> simp [h, validationPassed]

/-- C2: the recipient lookup of openSealFile ignores letter case and is
exclusive: a caller matching no entry case-insensitively gets the
unauthorized error with no primitive invoked. -/
theorem c2_case_insensitive_exclusive (sf : SealFile) (email : String) (key : EncodedKey) :
    ((∀ r ∈ sf.recipients, lowerChars r.email ≠ lowerChars email) →
        openSealFileOps sf email key = (Except.error SealError.unauthorizedError, []))
    ∧ ((∃ r ∈ sf.recipients, lowerChars r.email = lowerChars email) →
        (openSealFileOps sf email key).1 ≠ Except.error SealError.unauthorizedError)
    ∧ (∀ email2 : String, lowerChars email = lowerChars email2 →
        openSealFileOps sf email key = openSealFileOps sf email2 key) := by
  refine ⟨?_, ?_, ?_⟩
  · intro h
    have hnone : sf.recipients.find? (fun r => lowerChars r.email == lowerChars email) = none :=
      List.find?_eq_none.mpr (fun x hx => by simpa using h x hx)
    simp [openSealFileOps, hnone]
  · rintro ⟨r, hr, heq⟩
    have hsome : (sf.recipients.find? (fun r => lowerChars r.email == lowerChars email)).isSome := by
      rw [List.find?_isSome]
      exact ⟨r, hr, by simpa using heq⟩
    obtain ⟨entry, hent⟩ := Option.isSome_iff_exists.mp hsome
    simp only [openSealFileOps, hent]
    cases himp : importPrivateKey key with
    | error e =>
        have he := importPrivateKey_error key e himp
        simp [himp, he]
    | ok priv =>
      cases hdec : decryptKeyForRecipient entry.encryptedKey priv with
      | error e =>
          have he := decryptKeyForRecipient_error entry.encryptedKey priv e hdec
          simp [himp, hdec, he]
      | ok aesKey =>
        cases hfin : decryptFile sf.encryptedData aesKey sf.iv with
        | error e =>
            have he := decryptFile_error sf.encryptedData aesKey sf.iv e hfin
            simp [himp, hdec, hfin, he]
        | ok d => simp [himp, hdec, hfin]
  · intro email2 h
    simp only [openSealFileOps, h]

/-- C3: an expired envelope reports as expired whatever the caller email,
stored key or recipient list; the membership check is never reached. -/
theorem c3_expiry_before_auth (sf : SealFile) (ue se : Option String) (now : Int)
    (pk : Option EncodedKey) (T : Int)
    (hexp : sf.metadata "expiresAt" = some (MetaValue.timeStr T)) (hpast : T < now) :
    handleFileLoaded sf ue se now pk = ViewerOutcome.errorExpired T := by
  simp [handleFileLoaded, expiredCheck, hexp, truthy, getTime, hpast]

/-- C4: createSealFile fails outright when any requested recipient key is
malformed, and a produced envelope carries an entry for every requested
recipient, in order. -/
theorem c4_all_or_nothing (file : FileData) (recips : List RecipientInput) (fid : String)
    (m : Metadata) (key iv : Nat) (t : Int) :
    ((∃ r ∈ recips, ∀ j, r.publicKey ≠ EncodedKey.spki j) →
        createSealFile file recips fid m key iv t = Except.error SealError.keyFormatError)
    ∧ (∀ env, createSealFile file recips fid m key iv t = Except.ok env →
        env.recipients.map RecipientEntry.email = recips.map RecipientInput.email) := by
  constructor
  · rintro ⟨r, hr, hbad⟩
    have hw := wrapForRecipients_error key recips r hr hbad
    simp [createSealFile, hw]
  · intro env henv
    cases hw : wrapForRecipients key recips with
    | error e => simp [createSealFile, hw] at henv
    | ok entries =>
        have hmails := wrapForRecipients_emails key recips entries hw
        simp [createSealFile, hw] at henv
        simp [← henv, hmails]

/-- C8: the key codec rejects every encoding that is not valid base64 of
the expected well-formed key format, and a returned handle always comes
from a well-formed encoding of the right kind. -/
theorem c8_key_import_failures :
    (∀ e : EncodedKey, (∀ k, e ≠ EncodedKey.spki k) →
        importPublicKey e = Except.error SealError.keyFormatError)
    ∧ (∀ e : EncodedKey, (∀ k, e ≠ EncodedKey.pkcs8 k) →
        importPrivateKey e = Except.error SealError.keyFormatError)
    ∧ (∀ e k, importPublicKey e = Except.ok k → e = EncodedKey.spki k)
    ∧ (∀ e k, importPrivateKey e = Except.ok k → e = EncodedKey.pkcs8 k) := by
  refine ⟨?_, ?_, ?_, ?_⟩
  · intro e h
    cases e with
    | spki k => exact absurd rfl (h k)
    | pkcs8 k => rfl
    | invalidBase64 n => rfl
    | invalidBytes n => rfl
  · intro e h
    cases e with
    | pkcs8 k => exact absurd rfl (h k)
    | spki k => rfl
    | invalidBase64 n => rfl
    | invalidBytes n => rfl
  · intro e k h
    cases e with
    | spki j => simp [importPublicKey] at h; simp [h]
    | pkcs8 j => simp [importPublicKey] at h
    | invalidBase64 n => simp [importPublicKey] at h
    | invalidBytes n => simp [importPublicKey] at h
  · intro e k h
    cases e with
    | pkcs8 j => simp [importPrivateKey] at h; simp [h]
    | spki j => simp [importPrivateKey] at h
    | invalidBase64 n => simp [importPrivateKey] at h
    | invalidBytes n => simp [importPrivateKey] at h

/-- C9: openSealFile never consults metadata, so expiry does not constrain
it; its failures are only the unauthorized error or crypto-primitive
errors; and a sealed file whose metadata carries an expiry still opens to
the plaintext for a listed recipient with the matching key. -/
theorem c9_open_ignores_expiry :
    (∀ (sf : SealFile) (m : Metadata) (u : String) (k : EncodedKey),
        openSealFile { sf with metadata := m } u k = openSealFile sf u k)
    ∧ (∀ (sf : SealFile) (u : String) (k : EncodedKey) (e : SealError),
        openSealFile sf u k = Except.error e →
        e = SealError.unauthorizedError ∨ e = SealError.keyFormatError ∨
          e = SealError.decryptionError)
    ∧ (∀ (file : FileData) (recips : List RecipientInput) (fid : String) (m : Metadata)
        (key iv : Nat) (t T : Int) (r : RecipientInput) (k : Nat),
        m "expiresAt" = some (MetaValue.timeStr T) →
        (∀ x ∈ recips, ∃ j, x.publicKey = EncodedKey.spki j) →
        (recips.map fun x => lowerChars x.email).Nodup →
        r ∈ recips → r.publicKey = EncodedKey.spki k →
        (createSealFile file recips fid m key iv t).bind
          (fun env => openSealFile env r.email (EncodedKey.pkcs8 k))
          = Except.ok ⟨SymBytes.raw file.data, file.name, file.type⟩) := by
  refine ⟨?_, ?_, ?_⟩
  · intro sf m u k
    rfl
  · intro sf u k e h
    cases e with
    | keyFormatError => exact Or.inr (Or.inl rfl)
    | unauthorizedError => exact Or.inl rfl
    | decryptionError => exact Or.inr (Or.inr rfl)
  · intro file recips fid m key iv t T r k hexp hall hnodup hmem hk
    exact open_create_roundtrip file recips fid m key iv t r k hall hnodup hmem hk

/-- C10: the built envelope metadata agrees with the caller metadata on
every field except createdAt, which is set to the build time. -/
theorem c10_metadata_preserved (file : FileData) (recips : List RecipientInput) (fid : String)
    (m : Metadata) (key iv : Nat) (t : Int) (env : SealFile)
    (h : createSealFile file recips fid m key iv t = Except.ok env) (s : String) :
    env.metadata s = if s = "createdAt" then some (MetaValue.timeStr t) else m s := by
  cases hw : wrapForRecipients key recips with
  | error e => simp [createSealFile, hw] at h
  | ok entries =>
      simp [createSealFile, hw] at h
      simp [← h]


/-- C5: any structural defect (missing required field, empty recipients,
unrecognized version) terminates the pipeline as malformed before expiry
or authorization are considered, for every caller and clock. -/
theorem c5_structural_validation_first (raw : RawSeal) (ue se : Option String) (now : Int)
    (pk : Option EncodedKey)
    (h : raw.version ≠ some 1 ∨ raw.fileId = none ∨ raw.fileName = none ∨ raw.fileType = none ∨
         raw.fileSize = none ∨ raw.encryptedData = none ∨ raw.iv = none ∨
         raw.recipients = none ∨ raw.recipients = some [] ∨ raw.metadata = none) :
    viewerPipeline raw ue se now pk = PipelineOutcome.errorMalformed := by
  have hok : structuralOk raw = false := by
    rcases h with h|h|h|h|h|h|h|h|h|h
    · have hv : (raw.version == some 1) = false := beq_eq_false_iff_ne.mpr h
      simp [structuralOk, hv]
    · simp [structuralOk, h]
    · simp [structuralOk, h]
    · simp [structuralOk, h]
    · simp [structuralOk, h]
    · simp [structuralOk, h]
    · simp [structuralOk, h]
    · simp [structuralOk, recipientsOk, h]
    · simp [structuralOk, recipientsOk, h]
    · simp [structuralOk, h]
  simp [viewerPipeline, parseSealFile, hok]

/-- C7: with expiry T, validation at time T + 1 fails as expired, while at
T - 1 and exactly at T an authorized, logged-in caller passes validation
(the comparison is strict); without expiresAt no time yields the expired
outcome. -/
theorem c7_expiry_boundary (sf : SealFile) (T : Int) (ue se : Option String)
    (pk : Option EncodedKey) :
    (sf.metadata "expiresAt" = some (MetaValue.timeStr T) →
      handleFileLoaded sf ue se (T + 1) pk = ViewerOutcome.errorExpired T
      ∧ ((resolveEmail ue se).isEmpty = false → isRecipient sf (resolveEmail ue se) = true →
          validationPassed (handleFileLoaded sf ue se (T - 1) pk) = true
          ∧ validationPassed (handleFileLoaded sf ue se T pk) = true))
    ∧ (sf.metadata "expiresAt" = none →
        ∀ now e, handleFileLoaded sf ue se now pk ≠ ViewerOutcome.errorExpired e) := by
  constructor
  · intro hexp
    constructor
    · have h1 : T < T + 1 := by omega
      simp [handleFileLoaded, expiredCheck, hexp, truthy, getTime, h1]
    · intro hne hrec
      have hchk1 : expiredCheck sf (T - 1) = none := by
        have : ¬ (T - 1 > T) := by omega
        simp [expiredCheck, hexp, truthy, getTime, this]
      have hchk2 : expiredCheck sf T = none := by
        simp [expiredCheck, hexp, truthy, getTime]
      constructor
      · simp only [handleFileLoaded, hchk1, hne, Bool.false_eq_true, if_false, hrec, if_true]
        exact validationPassed_decrypt sf (resolveEmail ue se) pk
      · simp only [handleFileLoaded, hchk2, hne, Bool.false_eq_true, if_false, hrec, if_true]
        exact validationPassed_decrypt sf (resolveEmail ue se) pk
  · intro hexp now e
    have hchk : expiredCheck sf now = none := by
      simp [expiredCheck, hexp]
    simp only [handleFileLoaded, hchk]
    by_cases h1 : (resolveEmail ue se).isEmpty
    · simp [h1]
    · simp only [h1, Bool.false_eq_true, if_false]
      by_cases h2 : isRecipient sf (resolveEmail ue se)
      · simp only [h2, if_true]
        cases pk with
        | none => simp
        | some k => cases h3 : openSealFile sf (resolveEmail ue se) k <;> simp [h3]
      · simp [h2]


/-- C1 (amended): sealing for a non-empty recipient list with valid keys
and pairwise case-insensitively distinct emails, then opening as any
listed recipient with the matching private key, returns the original
bytes, fileName and fileType. -/
theorem c1_roundtrip (file : FileData) (recips : List RecipientInput) (fid : String)
    (m : Metadata) (key iv : Nat) (t : Int) (r : RecipientInput) (k : Nat)
    (hall : ∀ x ∈ recips, ∃ j, x.publicKey = EncodedKey.spki j)
    (hnodup : (recips.map fun x => lowerChars x.email).Nodup)
    (hmem : r ∈ recips) (hk : r.publicKey = EncodedKey.spki k) :
    (createSealFile file recips fid m key iv t).bind
      (fun env => openSealFile env r.email (EncodedKey.pkcs8 k))
      = Except.ok ⟨SymBytes.raw file.data, file.name, file.type⟩ :=
  open_create_roundtrip file recips fid m key iv t r k hall hnodup hmem hk

/-- C1 (counterexample): with two entries for the same email carrying the
public keys of pairs 1 and 2, opening as that email with the private key
of pair 2 fails, because the lookup returns the first entry, wrapped for
pair 1. -/
theorem c1_roundtrip_counterexample :
    (createSealFile file0 recipsDup "fid" meta0 5 9 0).bind
      (fun env => openSealFile env "a@x.com" (EncodedKey.pkcs8 2))
      = Except.error SealError.decryptionError := rfl

/-- C1 witness: the concrete two-recipient scenario opens for the second
recipient. -/
theorem c1_roundtrip_witness :
    (createSealFile file0 recipsAB "fid" meta0 5 9 0).bind
      (fun env => openSealFile env "b@x.com" (EncodedKey.pkcs8 2))
      = Except.ok ⟨SymBytes.raw file0.data, file0.name, file0.type⟩ := by
  have h := c1_roundtrip file0 recipsAB "fid" meta0 5 9 0 ⟨"b@x.com", EncodedKey.spki 2⟩ 2
    (by intro x hx
        rcases List.mem_cons.mp hx with rfl | hx
        · exact ⟨1, rfl⟩
        · rcases List.mem_cons.mp hx with rfl | hx
          · exact ⟨2, rfl⟩
          · exact absurd hx (List.not_mem_nil x))
    (by decide) (by decide) rfl
  exact h

/-- C6: the code accepts an empty recipient list: createSealFile returns
an envelope whose recipients list is empty instead of failing. -/
theorem c6_empty_recipients_not_rejected :
    createSealFile file0 [] "fid" meta0 5 9 0
      = Except.ok
          { version := 1
            fileId := "fid"
            fileName := file0.name
            fileType := file0.type
            fileSize := file0.size
            encryptedData := SymBytes.aesCt 5 9 (SymBytes.raw file0.data)
            iv := 9
            recipients := []
            metadata := fun k =>
              if k = "createdAt" then some (MetaValue.timeStr 0) else meta0 k }
      := rfl


/-- C2 witness: on the concrete sealed file, a non-recipient gets the
unauthorized error with no primitive invoked, while the case-mismatched
caller A@X.com is past the authorization check. -/
theorem c2_case_insensitive_exclusive_witness :
    openSealFileOps sealAB "c@x.com" (EncodedKey.pkcs8 1)
        = (Except.error SealError.unauthorizedError, [])
    ∧ (openSealFileOps sealAB "A@X.com" (EncodedKey.pkcs8 1)).1
        ≠ Except.error SealError.unauthorizedError :=
  ⟨(c2_case_insensitive_exclusive sealAB "c@x.com" (EncodedKey.pkcs8 1)).1 (by decide),
   (c2_case_insensitive_exclusive sealAB "A@X.com" (EncodedKey.pkcs8 1)).2.1
     ⟨⟨"a@x.com", SymBytes.rsaCt 1 (SymBytes.rawKey 5)⟩, by decide, by decide⟩⟩

/-- C3 witness: at time 101 the concrete file expiring at 100 reports as
expired even to the non-recipient c@x.com. -/
theorem c3_expiry_before_auth_witness :
    handleFileLoaded sealAB (some "c@x.com") none 101 none = ViewerOutcome.errorExpired 100 :=
  c3_expiry_before_auth sealAB (some "c@x.com") none 101 none 100 rfl (by decide)

/-- C4 witness: the build with one malformed recipient key fails outright,
and the successful two-recipient build keeps both emails. -/
theorem c4_all_or_nothing_witness :
    createSealFile file0 recipsBad "fid" meta0 5 9 0 = Except.error SealError.keyFormatError
    ∧ (envOrDefault (createSealFile file0 recipsAB "fid" meta0 5 9 0)).recipients.map
        RecipientEntry.email = recipsAB.map RecipientInput.email :=
  ⟨(c4_all_or_nothing file0 recipsBad "fid" meta0 5 9 0).1
     ⟨⟨"b@x.com", EncodedKey.invalidBytes 3⟩, by decide, fun j h => by cases h⟩,
   (c4_all_or_nothing file0 recipsAB "fid" meta0 5 9 0).2
     (envOrDefault (createSealFile file0 recipsAB "fid" meta0 5 9 0)) rfl⟩

/-- C5 witness: the raw object carrying version 2 is rejected as malformed
for any caller and clock. -/
theorem c5_structural_validation_first_witness :
    viewerPipeline rawV2 (some "a@x.com") none 0 (some (EncodedKey.pkcs8 1))
      = PipelineOutcome.errorMalformed :=
  c5_structural_validation_first rawV2 (some "a@x.com") none 0 (some (EncodedKey.pkcs8 1))
    (Or.inl (by decide))

/-- C7 witness: for the concrete file expiring at 100, the authorized
caller a@x.com passes validation at 99 and at 100 and fails as expired at
101; the file without expiry never reports expired. -/
theorem c7_expiry_boundary_witness :
    handleFileLoaded sealAB (some "a@x.com") none (100 + 1) (some (EncodedKey.pkcs8 1))
        = ViewerOutcome.errorExpired 100
    ∧ validationPassed (handleFileLoaded sealAB (some "a@x.com") none (100 - 1)
        (some (EncodedKey.pkcs8 1))) = true
    ∧ validationPassed (handleFileLoaded sealAB (some "a@x.com") none 100
        (some (EncodedKey.pkcs8 1))) = true
    ∧ handleFileLoaded sealNoExp (some "a@x.com") none 500 none
        ≠ ViewerOutcome.errorExpired 7 := by
  have h := (c7_expiry_boundary sealAB 100 (some "a@x.com") none
    (some (EncodedKey.pkcs8 1))).1 rfl
  have h2 := h.2 (by decide) (by decide)
  exact ⟨h.1, h2.1, h2.2,
    (c7_expiry_boundary sealNoExp 100 (some "a@x.com") none none).2 rfl 500 7⟩

/-- C8 witness: a string that is not base64 and a string decoding to
malformed key bytes are both rejected by the two import functions. -/
theorem c8_key_import_failures_witness :
    importPublicKey (EncodedKey.invalidBase64 0) = Except.error SealError.keyFormatError
    ∧ importPrivateKey (EncodedKey.invalidBytes 1) = Except.error SealError.keyFormatError :=
  ⟨c8_key_import_failures.1 (EncodedKey.invalidBase64 0) (fun k h => by cases h),
   c8_key_import_failures.2.1 (EncodedKey.invalidBytes 1) (fun k h => by cases h)⟩

/-- C9 witness: the concrete build whose metadata expires at epoch-millis
100 still opens to the plaintext for recipient a@x.com. -/
theorem c9_open_ignores_expiry_witness :
    (createSealFile file0 recipsAB "fid" meta1 5 9 0).bind
      (fun env => openSealFile env "a@x.com" (EncodedKey.pkcs8 1))
      = Except.ok ⟨SymBytes.raw file0.data, file0.name, file0.type⟩ := by
  have h := c9_open_ignores_expiry.2.2 file0 recipsAB "fid" meta1 5 9 0 100
    ⟨"a@x.com", EncodedKey.spki 1⟩ 1 rfl
    (by intro x hx
        rcases List.mem_cons.mp hx with rfl | hx
        · exact ⟨1, rfl⟩
        · rcases List.mem_cons.mp hx with rfl | hx
          · exact ⟨2, rfl⟩
          · exact absurd hx (List.not_mem_nil x))
    (by decide) (by decide) rfl
  exact h

/-- C10 witness: the concrete build stamps createdAt with the build time
42 and keeps the note field and the expiresAt field of the caller
metadata. -/
theorem c10_metadata_preserved_witness :
    (envOrDefault (createSealFile file0 recipsAB "fid" meta1 5 9 42)).metadata "createdAt"
        = some (MetaValue.timeStr 42)
    ∧ (envOrDefault (createSealFile file0 recipsAB "fid" meta1 5 9 42)).metadata "note"
        = some (MetaValue.text "hi") := by
  have h := c10_metadata_preserved file0 recipsAB "fid" meta1 5 9 42
    (envOrDefault (createSealFile file0 recipsAB "fid" meta1 5 9 42)) rfl
  refine ⟨(h "createdAt").trans ?_, (h "note").trans ?_⟩
  · simp
  · simp [meta1]

end Seal
